import Mathlib

set_option maxRecDepth 4000

/-!
Verification of `colossalai/zero/sharded_optim/sharded_optim_v2.py`
(`ShardedOptimizerV2`), a mixed-precision sharded optimizer wrapper.

Shallow embedding notes.
* Tensors are modelled as lists of scalar values over ℚ, extended with the
  non-finite floating values (plus/minus infinity and NaN), together with a
  dtype and a device tag.  Numeric rounding is not modelled; none of the
  verified properties depend on it.
* The wrapped base optimizer (`adam_optim` / `self.optim`) is an external
  collaborator; its `step` is modelled as an arbitrary function `f` from its
  internal state and the current parameter groups to a new internal state,
  the in-place-updated per-parameter data tensors, and a return value.
* Python exceptions (failed `assert`, a constructor that raises) are
  modelled with `Option`: `none` is the raised assertion.
* Distributed collectives: `dist.all_reduce(MAX, group)` is modelled as a
  max-fold of the local value with the values contributed by the other
  processes of that group (`dpOthers` / `mpOthers`); the state keeps a ghost
  log (`commLog`) of which collective calls were issued, in order.
* Aliasing: `step` assigns `p.data = self.master_params[p]`, so the base
  optimizer mutates the master tensor itself in place.  The embedding makes
  this explicit by writing the data tensors returned by the base step into
  both the parameter slot and the master store.
-/

namespace ShardedOptimizerV2

/-- Torch dtypes that matter for this code: the floating types and a couple
of non-floating ones. -/
inductive DType where
  | float16
  | bfloat16
  | float32
  | float64
  | int32
  | int64
deriving DecidableEq

/-- `torch.is_floating_point`. -/
def DType.isFloatingPoint : DType → Bool
  | .float16 => true
  | .bfloat16 => true
  | .float32 => true
  | .float64 => true
  | _ => false

/-- Device placement: `torch.cuda.current_device()` or `torch.device(cpu)`. -/
inductive Device where
  | gpu
  | cpu
deriving DecidableEq

/-- A scalar tensor element: a finite value, or one of the non-finite
floating values. -/
inductive Val where
  | fin (q : ℚ)
  | posInf
  | negInf
  | nan
deriving DecidableEq

/-- Whether the element is plus/minus infinity or NaN. -/
def Val.isNonFinite : Val → Bool
  | .fin _ => false
  | _ => true

/-- Division of an element by a scalar; non-finite values stay non-finite. -/
def Val.divQ (s : ℚ) : Val → Val
  | .fin q => .fin (q / s)
  | v => v

structure Tensor where
  dtype : DType
  device : Device
  data : List Val
deriving DecidableEq

/-- `t.to(device=d)`. -/
def Tensor.toDevice (t : Tensor) (d : Device) : Tensor := { t with device := d }

/-- `t.to(dtype)`. -/
def Tensor.toDType (t : Tensor) (d : DType) : Tensor := { t with dtype := d }

/-- In-place `t.div_(s)`. -/
def Tensor.divScalar (t : Tensor) (s : ℚ) : Tensor :=
  { t with data := t.data.map (Val.divQ s) }

/-- Modelled from the spec: the sharded-parameter attribute collaborator
(`p.ca_attr`, implemented outside the given sources) exposing
`is_sharded : bool`, `payload(device) -> tensor` (the resident local shard
payload, moved to the requested device) and `set_payload(tensor)`. -/
structure CaAttr where
  is_sharded : Bool
  payload_data : Tensor
deriving DecidableEq

/-- Modelled from the spec: `payload(device)` returns the resident payload on
the requested device. -/
def CaAttr.payloadOn (a : CaAttr) (d : Device) : Tensor := a.payload_data.toDevice d

/-- Modelled from the spec: `payload()` with no argument returns the resident
payload. -/
def CaAttr.payload (a : CaAttr) : Tensor := a.payload_data

/-- Modelled from the spec: `set_payload(tensor)` stores the tensor into the
resident shard payload. -/
def CaAttr.set_payload (a : CaAttr) (t : Tensor) : CaAttr := { a with payload_data := t }

/-- A working parameter: `p.data`, optional `p.grad`, and the optional
sharded attribute `p.ca_attr`. -/
structure Param where
  data : Tensor
  grad : Option Tensor
  ca_attr : Option CaAttr
deriving DecidableEq

/-- enum OptimState (lines 20-22). -/
inductive OptimState where
  | SCALED
  | UNSCALED
deriving DecidableEq

/-- Modelled from the spec: `DynamicGradScaler`
(`colossalai.amp.naive_amp._fp16_optimizer`, outside the given sources).
Only the behavior stated in the spec is modelled: a scale clamped to
`[min_scale, max_scale]`, backoff on overflow, growth after
`growth_interval` consecutive non-overflow updates.  The exact hysteresis
policy is declared a black box by the spec and is not modelled; no claim
depends on it. -/
structure DynamicGradScaler where
  scale : ℚ
  minScale : ℚ
  maxScale : ℚ
  growthFactor : ℚ
  backoffFactor : ℚ
  growthInterval : ℕ
  growthStep : ℕ
deriving DecidableEq

/-- Modelled from the spec: `update(found_overflow)` of the dynamic loss
scaler.  On overflow: backoff (clamped below by `min_scale`) and reset the
growth counter; otherwise count, and grow (clamped above by `max_scale`)
when the counter reaches the growth interval. -/
def DynamicGradScaler.update (g : DynamicGradScaler) (foundOverflow : Bool) :
    DynamicGradScaler :=
  if foundOverflow then
    { g with scale := max (g.scale * g.backoffFactor) g.minScale, growthStep := 0 }
  else if g.growthStep + 1 ≥ g.growthInterval then
    { g with scale := min (g.scale * g.growthFactor) g.maxScale, growthStep := 0 }
  else
    { g with growthStep := g.growthStep + 1 }

/-- Ghost record of a collective-communication call issued by
`_check_overflow`: a max all-reduce over the data-parallel group or over the
model-parallel group. -/
inductive CommOp where
  | allReduceMaxDp
  | allReduceMaxMp
deriving DecidableEq

/-- The optimizer state.  `σ` is the internal state of the wrapped base
optimizer (an external collaborator).  `paramGroups` is
`self.optim.param_groups` (each group reduced to its `params` list);
`masterParams` is `self.master_params`, keyed by parameter identity, i.e.
positionally parallel to `paramGroups`.  `foundOverflow` is the
single-element tensor `self._found_overflow`; `commLog` is the ghost log of
collective calls. -/
structure State (σ : Type) where
  paramGroups : List (List Param)
  masterParams : List (List Tensor)
  optimState : OptimState
  gradScaler : DynamicGradScaler
  baseState : σ
  foundOverflow : ℚ
  device : Device
  modelIsSharded : Bool
  commLog : List CommOp
deriving DecidableEq

variable {σ ρ α β : Type}

/-- property `loss_scale` (lines 114-116). -/
def State.lossScale (s : State σ) : ℚ := s.gradScaler.scale

/-- Lines 62-68 of `__init__`, for one parameter: the master copy is the
sharded payload on `self.device` (after asserting `is_sharded`) or
`p.data.to(device)`; a floating tensor whose dtype is not `torch.float` is
then converted to `torch.float`.  `none` is the failed assertion. -/
def initMasterParam (device : Device) (p : Param) : Option Tensor :=
  let base : Option Tensor :=
    match p.ca_attr with
    | some attr => if attr.is_sharded then some (attr.payloadOn device) else none
    | none => some (p.data.toDevice device)
  base.map fun t =>
    if t.dtype.isFloatingPoint ∧ t.dtype ≠ DType.float32 then t.toDType DType.float32
    else t

/-- Effectful traversal over `Option`, used to thread the possible
construction-time assertion failure through the parameter loop. -/
def traverseOption (f : α → Option β) : List α → Option (List β)
  | [] => some []
  | a :: as => (f a).bind fun b => (traverseOption f as).map fun bs => b :: bs

/-- `__init__` (lines 27-68): records the device (`cpu` iff `cpu_offload`),
builds the grad scaler from the construction parameters, sets the initial
phase to `UNSCALED`, zeroes `_found_overflow` and builds the master store;
`none` is the constructor raising the `is_sharded` assertion. -/
def init (baseState : σ) (modelIsSharded : Bool) (cpuOffload : Bool)
    (initialScale minScale growthFactor backoffFactor : ℚ)
    (growthInterval : ℕ) (maxScale : ℚ)
    (paramGroups : List (List Param)) : Option (State σ) :=
  let device := if cpuOffload then Device.cpu else Device.gpu
  (traverseOption (traverseOption (initMasterParam device)) paramGroups).map fun masters =>
    { paramGroups := paramGroups,
           masterParams := masters,
           optimState := OptimState.UNSCALED,
           gradScaler := { scale := initialScale, minScale := minScale,
                           maxScale := maxScale, growthFactor := growthFactor,
                           backoffFactor := backoffFactor,
                           growthInterval := growthInterval, growthStep := 0 },
           baseState := baseState,
           foundOverflow := 0,
           device := device,
           modelIsSharded := modelIsSharded,
           commLog := [] }

/-- One parameter of `_unscale_grads` (lines 139-142): if the gradient is
present, divide it in place by the loss scale. -/
def unscaleParam (scale : ℚ) (p : Param) : Param :=
  match p.grad with
  | some g => { p with grad := some (g.divScalar scale) }
  | none => p

/-- `_unscale_grads` (lines 137-143): asserts `optim_state == SCALED`
(`none` is the failed assertion), divides every present gradient in place by
`self.loss_scale`, then sets the phase to `UNSCALED`. -/
def unscaleGradsChecked (s : State σ) : Option (State σ) :=
  if s.optimState = OptimState.SCALED then
    some { s with
           paramGroups := s.paramGroups.map (List.map (unscaleParam s.gradScaler.scale)),
           optimState := OptimState.UNSCALED }
  else none

/-- The guarded unscale shared by `step` (lines 72-73) and `clip_grad_norm`
(lines 110-111): `if self.optim_state == OptimState.SCALED:
self._unscale_grads()`. -/
def unscaleIfScaled (s : State σ) : Option (State σ) :=
  if s.optimState = OptimState.SCALED then unscaleGradsChecked s else some s

/-- Modelled from the spec: `has_inf_or_nan`
(`colossalai/zero/sharded_optim/_utils.py`, outside the given sources): an
absent (`None`) gradient is skipped and is not an overflow signal; a present
tensor signals overflow iff some element is non-finite (plus/minus infinity
or NaN). -/
def hasInfOrNan : Option Tensor → Bool
  | none => false
  | some t => t.data.any Val.isNonFinite

/-- The inner loop of the scan in `_check_overflow` (lines 123-127) on one
group: on the first parameter whose gradient has a non-finite element, fill
the flag with `1.0` and `break` (the `break` leaves only this inner loop). -/
def scanGroup (flag : ℚ) : List Param → ℚ
  | [] => flag
  | p :: ps => if hasInfOrNan p.grad then (1 : ℚ) else scanGroup flag ps

/-- The full scan of `_check_overflow` over all parameter groups. -/
def scanGroups (flag : ℚ) (groups : List (List Param)) : ℚ :=
  groups.foldl scanGroup flag

/-- `dist.all_reduce(x, op=MAX, group)`: the maximum of the local value and
the values contributed by the other processes of the group. -/
def allReduceMax (x : ℚ) (others : List ℚ) : ℚ := others.foldl max x

/-- `_check_overflow` (lines 118-135): reset `_found_overflow` to `0`, scan
the parameter groups, max all-reduce across the data-parallel group and then
across the model-parallel group (both calls recorded in the ghost log, in
order), store the result and return whether it is `> 0`. -/
def checkOverflow (dpOthers mpOthers : List ℚ) (s : State σ) : State σ × Bool :=
  let f0 : ℚ := 0
  let f1 := scanGroups f0 s.paramGroups
  let f2 := allReduceMax f1 dpOthers
  let f3 := allReduceMax f2 mpOthers
  ({ s with foundOverflow := f3,
            commLog := s.commLog ++ [CommOp.allReduceMaxDp, CommOp.allReduceMaxMp] },
   decide (0 < f3))

/-- Ghost instrumentation of the scan of `_check_overflow`: the sequence of
parameters whose gradient is passed to `has_inf_or_nan`, in order.  Within a
group the scan stops right after the first parameter found to overflow (the
`break`); the outer loop then continues with the next group. -/
def scanGroupTrace : List Param → List Param
  | [] => []
  | p :: ps => if hasInfOrNan p.grad then [p] else p :: scanGroupTrace ps

/-- The inspection sequence of the whole scan: each group contributes its own
(short-circuited) trace. -/
def scanTrace (groups : List (List Param)) : List Param :=
  (groups.map scanGroupTrace).flatten

/-- The inspection sequence asserted by the claim: a single global
short-circuit, stopping at the first overflowing parameter of the flattened
group list.  This is a claim-side definition, for comparison with
`scanTrace` (the behavior of the code). -/
def scanTraceClaim (groups : List (List Param)) : List Param :=
  let ps := groups.flatten
  let pre := ps.takeWhile fun p => !hasInfOrNan p.grad
  pre ++ (ps.drop pre.length).take 1

/-- Modelled from the spec: `zero_grad` (inherited from the wrapped
optimizer classes, outside the given sources) clears every gradient to
zero/empty; cleared gradients are modelled as absent. -/
def zeroGrad (s : State σ) : State σ :=
  { s with paramGroups := s.paramGroups.map (List.map fun p => { p with grad := none }) }

/-- Overwrite the elements of the second list with the elements of the first
one, keeping the tail of the second list where the first is shorter.  Used
to express in-place elementwise writes over parallel lists. -/
def zipKeep (f : α → β → β) : List α → List β → List β
  | _, [] => []
  | [], b :: bs => b :: bs
  | a :: as, b :: bs => f a b :: zipKeep f as bs

/-- Lines 82-85 of `step`: `p.data = self.master_params[p]` for every
parameter of every group.  After this, `p.data` aliases the master tensor. -/
def writeMasterToData (s : State σ) : State σ :=
  { s with paramGroups :=
      (zipKeep (fun ms g => zipKeep (fun m p => { p with data := m }) ms g)
        s.masterParams s.paramGroups) }

/-- The in-place mutation of every `p.data` performed by the base optimizer
step.  Since line 85 made `p.data` alias `self.master_params[p]`, the
mutation lands in both the parameter slot and the master store. -/
def applyBaseUpdate (newDatas : List (List Tensor)) (s : State σ) : State σ :=
  { s with
    paramGroups :=
      (zipKeep (fun ts g => zipKeep (fun t p => { p with data := t }) ts g)
        newDatas s.paramGroups),
    masterParams :=
      (zipKeep (fun ts ms => zipKeep (fun t _x => t) ts ms) newDatas s.masterParams) }

/-- Lines 90-92 of `step`, for one parameter: for a sharded parameter,
`p.ca_attr.set_payload(p.data); p.data = p.ca_attr.payload()`. -/
def shardedWritebackParam (p : Param) : Param :=
  match p.ca_attr with
  | some a =>
    let a2 := a.set_payload p.data
    { p with ca_attr := some a2, data := a2.payload }
  | none => p

/-- Lines 88-92 of `step`: push the updated data of every sharded parameter
back into its resident shard payload. -/
def shardedWriteback (s : State σ) : State σ :=
  { s with paramGroups := s.paramGroups.map (List.map shardedWritebackParam) }

/-- Lines 75-76 of `step`: run the overflow check, then feed the result into
the grad scaler. -/
def stepUpdateScaler (dpOthers mpOthers : List ℚ) (s1 : State σ) : State σ × Bool :=
  let co := checkOverflow dpOthers mpOthers s1
  ({ co.1 with gradScaler := co.1.gradScaler.update co.2 }, co.2)

/-- Lines 82-93 of `step` (no-overflow branch): write the master values into
the parameter slots, run the base optimizer step `f` on them (in place, so
the master tensors are updated too), then write sharded data back into the
shard payloads; also returns what the base step returned. -/
def stepApplyBase (f : σ → List (List Param) → σ × List (List Tensor) × ρ)
    (s3 : State σ) : State σ × ρ :=
  let s4 := writeMasterToData s3
  let r := f s4.baseState s4.paramGroups
  (shardedWriteback (applyBaseUpdate r.2.1 { s4 with baseState := r.1 }), r.2.2)

/-- `step` after the guarded unscale (lines 75-93): overflow check, scaler
update, then either clear the gradients and return `None`, or run the base
optimizer as in `stepApplyBase`. -/
def stepAfterUnscale (f : σ → List (List Param) → σ × List (List Tensor) × ρ)
    (dpOthers mpOthers : List ℚ) (s1 : State σ) : Option (State σ × Option ρ) :=
  let us := stepUpdateScaler dpOthers mpOthers s1
  if us.2 then some (zeroGrad us.1, none)
  else
    let r := stepApplyBase f us.1
    some (r.1, some r.2)

/-- `step` (lines 70-93).  `f` is the wrapped base optimizer's own step
(external collaborator); `none` would be an uncaught assertion from
`_unscale_grads`. -/
def step (f : σ → List (List Param) → σ × List (List Tensor) × ρ)
    (dpOthers mpOthers : List ℚ) (s : State σ) : Option (State σ × Option ρ) :=
  (unscaleIfScaled s).bind (stepAfterUnscale f dpOthers mpOthers)

/-- The overflow consensus value that `step` computes on a given entry
state: the result of `_check_overflow` on the state left by the guarded
unscale. -/
def stepFoundInf (dpOthers mpOthers : List ℚ) (s : State σ) : Bool :=
  match unscaleIfScaled s with
  | none => false
  | some s1 => (checkOverflow dpOthers mpOthers s1).2

/-- Line 96 of `backward`: `loss = self.loss_scale * loss`. -/
def backwardScaledLoss (s : State σ) (loss : ℚ) : ℚ := s.lossScale * loss

/-- `backward` (lines 95-101): scale the loss, set the phase to `SCALED`,
then delegate to the sharded model's backward or to the inherited backward
(both external collaborators, modelled by `bf`, which produces the new
parameter groups, i.e. the accumulated gradients). -/
def backward (bf : ℚ → List (List Param) → List (List Param)) (loss : ℚ)
    (s : State σ) : State σ :=
  let scaledLoss := backwardScaledLoss s loss
  let s1 := { s with optimState := OptimState.SCALED }
  if s1.modelIsSharded then { s1 with paramGroups := bf scaledLoss s1.paramGroups }
  else { s1 with paramGroups := bf scaledLoss s1.paramGroups }

/-- `clip_grad_norm` (lines 109-112): guarded unscale, then delegate the
clipping to the inherited routine (external collaborator `clipFn`, which
returns the new parameter groups and the computed norm). -/
def clipGradNorm (clipFn : ℚ → List (List Param) → List (List Param) × ℚ)
    (maxNorm : ℚ) (s : State σ) : Option (State σ × ℚ) :=
  (unscaleIfScaled s).map fun s1 =>
    let r := clipFn maxNorm s1.paramGroups
    ({ s1 with paramGroups := r.1 }, r.2)

/-- Whether every gradient of every parameter is absent. -/
def State.allGradsNone (s : State σ) : Bool :=
  s.paramGroups.all fun g => g.all fun p => p.grad.isNone

/-- Whether the master store holds exactly the current data of every
parameter, positionally (`get(p) == p.data` for every `p`). -/
def State.mastersMatchData (s : State σ) : Bool :=
  decide (s.masterParams = s.paramGroups.map (List.map Param.data))

/-- Whether every sharded parameter's resident payload equals its current
data. -/
def State.payloadsMatchData (s : State σ) : Bool :=
  s.paramGroups.all fun g => g.all fun p =>
    match p.ca_attr with
    | some a => decide (a.payload_data = p.data)
    | none => true

/-- Shape compatibility of the master store with the parameter groups
(established by `init`, preserved by every operation). -/
def State.aligned (s : State σ) : Prop :=
  s.masterParams.map List.length = s.paramGroups.map List.length

/-- A call through the public interface: `step()` (with the base step and
the peer contributions to the two reductions) or `clip_grad_norm()`. -/
inductive PubOp (σ : Type) where
  | stepOp (f : σ → List (List Param) → σ × List (List Tensor) × ℚ)
      (dpOthers mpOthers : List ℚ)
  | clipOp (clipFn : ℚ → List (List Param) → List (List Param) × ℚ) (maxNorm : ℚ)

/-- Run a sequence of public calls; `none` as soon as one of them raises the
`_unscale_grads` assertion. -/
def runPublic : List (PubOp σ) → State σ → Option (State σ)
  | [], s => some s
  | PubOp.stepOp f dpO mpO :: ops, s =>
    ((step f dpO mpO s).map Prod.fst).bind (runPublic ops)
  | PubOp.clipOp c m :: ops, s =>
    ((clipGradNorm c m s).map Prod.fst).bind (runPublic ops)

/-- The dtype of the source from which the master copy of a parameter is
made: the resident payload for an attribute-bearing parameter, the working
data otherwise. -/
def srcDtype (p : Param) : DType :=
  match p.ca_attr with
  | some a => a.payload_data.dtype
  | none => p.data.dtype

/-- The notion of a lower-precision floating type used by the claim about
master-copy conversion: a floating type with fewer bits than 32-bit float.
This is a claim-side definition, for comparison with what the constructor
does. -/
def DType.isLowerPrecisionFloat : DType → Bool
  | DType.float16 => true
  | DType.bfloat16 => true
  | _ => false

/-! Concrete values, used by the witnesses and counterexamples below. -/

def tOne : Tensor := { dtype := DType.float32, device := Device.gpu, data := [Val.fin 1] }

def tNan : Tensor := { dtype := DType.float32, device := Device.gpu, data := [Val.nan] }

def t16 : Tensor := { dtype := DType.float32, device := Device.gpu, data := [Val.fin 16] }

def tHalf : Tensor := { dtype := DType.float16, device := Device.gpu, data := [Val.fin 3] }

def pNan : Param := { data := tOne, grad := some tNan, ca_attr := none }

def pFin : Param := { data := tOne, grad := some tOne, ca_attr := none }

def pNoGrad : Param := { data := tOne, grad := none, ca_attr := none }

def aSh : CaAttr := { is_sharded := true, payload_data := tHalf }

def aBad : CaAttr := { is_sharded := false, payload_data := tHalf }

def pW : Param := { data := tHalf, grad := some t16, ca_attr := some aSh }

def pBadAttr : Param := { data := tHalf, grad := none, ca_attr := some aBad }

def pHalfPlain : Param := { data := tHalf, grad := none, ca_attr := none }

def p64 : Param :=
  { data := { dtype := DType.float64, device := Device.cpu, data := [Val.fin 1] },
    grad := none, ca_attr := none }

/-- The rational one half, written as an explicit numerator/denominator
pair. -/
def half : ℚ := { num := 1, den := 2 }

def exScaler : DynamicGradScaler :=
  { scale := 8, minScale := 1, maxScale := 32, growthFactor := 2,
    backoffFactor := half, growthInterval := 1000, growthStep := 0 }

/-- A small concrete optimizer state in the SCALED phase: one sharded
parameter whose gradient is `16` at loss scale `8`. -/
def sScaled : State Unit :=
  { paramGroups := [[pW]], masterParams := [[tOne]],
    optimState := OptimState.SCALED, gradScaler := exScaler, baseState := (),
    foundOverflow := 0, device := Device.gpu, modelIsSharded := true, commLog := [] }

def sUn : State Unit := { sScaled with optimState := OptimState.UNSCALED }

/-- The state produced by `init` on an empty group list. -/
def stInit : State Unit :=
  { paramGroups := [], masterParams := [], optimState := OptimState.UNSCALED,
    gradScaler := exScaler, baseState := (), foundOverflow := 0,
    device := Device.gpu, modelIsSharded := true, commLog := [] }

/-- The master tensor built for `pHalfPlain` on the cpu device. -/
def mHalf : Tensor := { dtype := DType.float32, device := Device.cpu, data := [Val.fin 3] }

/-- A concrete base-optimizer step: halve every data tensor, return `5`. -/
def fEx : Unit → List (List Param) → Unit × List (List Tensor) × ℚ :=
  fun b gs => (b, gs.map (List.map fun p => p.data.divScalar 2), 5)

/-- Another concrete base-optimizer step, distinguishable from `fEx`. -/
def gEx : Unit → List (List Param) → Unit × List (List Tensor) × ℚ :=
  fun b _gs => (b, [], 7)

/-- A concrete model backward: leaves the gradients as they are. -/
def bfEx : ℚ → List (List Param) → List (List Param) := fun _l gs => gs

/-! Helper lemmas. -/

theorem Tensor.dtype_toDevice (t : Tensor) (d : Device) : (t.toDevice d).dtype = t.dtype := rfl

theorem Tensor.device_toDevice (t : Tensor) (d : Device) : (t.toDevice d).device = d := rfl

theorem Tensor.dtype_toDType (t : Tensor) (d : DType) : (t.toDType d).dtype = d := rfl

theorem Tensor.device_toDType (t : Tensor) (d : DType) : (t.toDType d).device = t.device := rfl

theorem backward_optimState (bf : ℚ → List (List Param) → List (List Param))
    (loss : ℚ) (s : State σ) : (backward bf loss s).optimState = OptimState.SCALED := by
  unfold backward
  by_cases h : s.modelIsSharded <;> simp [h]

theorem backward_gradScaler (bf : ℚ → List (List Param) → List (List Param))
    (loss : ℚ) (s : State σ) : (backward bf loss s).gradScaler = s.gradScaler := by
  unfold backward
  by_cases h : s.modelIsSharded <;> simp [h]

theorem scanGroup_eq (flag : ℚ) (g : List Param) :
    scanGroup flag g = if g.any (fun p => hasInfOrNan p.grad) then 1 else flag := by
  induction g with
  | nil => simp [scanGroup]
  | cons p ps ih =>
    by_cases h : hasInfOrNan p.grad
    · simp [scanGroup, h]
    · simp [scanGroup, h, ih]

theorem scanGroups_eq (flag : ℚ) (gs : List (List Param)) :
    scanGroups flag gs
      = if gs.any (fun g => g.any fun p => hasInfOrNan p.grad) then 1 else flag := by
  induction gs generalizing flag with
  | nil => simp [scanGroups]
  | cons g gs ih =>
    have h1 : scanGroups flag (g :: gs) = scanGroups (scanGroup flag g) gs := rfl
    rw [h1, ih, scanGroup_eq]
    by_cases hg : g.any (fun p => hasInfOrNan p.grad) <;>
      by_cases hgs : gs.any (fun gg => gg.any fun p => hasInfOrNan p.grad) <;>
      simp [hg, hgs]

theorem scanGroupTrace_eq (g : List Param) :
    scanGroupTrace g
      = g.takeWhile (fun p => !hasInfOrNan p.grad)
        ++ (g.drop (g.takeWhile (fun p => !hasInfOrNan p.grad)).length).take 1 := by
  induction g with
  | nil => simp [scanGroupTrace]
  | cons p ps ih =>
    by_cases h : hasInfOrNan p.grad
    · simp [scanGroupTrace, List.takeWhile_cons, h]
    · simp [scanGroupTrace, List.takeWhile_cons, h, ih]

theorem optimState_not_scaled (s : State σ) (h : ¬s.optimState = OptimState.SCALED) :
    s.optimState = OptimState.UNSCALED := by
  cases hs : s.optimState
  · exact absurd hs h
  · rfl

theorem unscaleIfScaled_spec (s : State σ) :
    ∃ s1, unscaleIfScaled s = some s1 ∧
      s1.masterParams = s.masterParams ∧
      s1.baseState = s.baseState ∧
      s1.gradScaler = s.gradScaler ∧
      s1.optimState = OptimState.UNSCALED ∧
      s1.commLog = s.commLog ∧
      s1.paramGroups.map List.length = s.paramGroups.map List.length := by
  by_cases h : s.optimState = OptimState.SCALED
  · refine ⟨{ s with
        paramGroups := s.paramGroups.map (List.map (unscaleParam s.gradScaler.scale)),
        optimState := OptimState.UNSCALED }, ?_, rfl, rfl, rfl, rfl, rfl, ?_⟩
    · simp [unscaleIfScaled, unscaleGradsChecked, h]
    · simp [List.map_map, Function.comp_def]
  · exact ⟨s, by simp [unscaleIfScaled, h], rfl, rfl, rfl,
      optimState_not_scaled s h, rfl, rfl⟩

theorem stepUpdateScaler_fst_masterParams (dpO mpO : List ℚ) (s1 : State σ) :
    (stepUpdateScaler dpO mpO s1).1.masterParams = s1.masterParams := rfl

theorem stepUpdateScaler_fst_paramGroups (dpO mpO : List ℚ) (s1 : State σ) :
    (stepUpdateScaler dpO mpO s1).1.paramGroups = s1.paramGroups := rfl

theorem stepUpdateScaler_fst_baseState (dpO mpO : List ℚ) (s1 : State σ) :
    (stepUpdateScaler dpO mpO s1).1.baseState = s1.baseState := rfl

theorem stepUpdateScaler_snd (dpO mpO : List ℚ) (s1 : State σ) :
    (stepUpdateScaler dpO mpO s1).2 = (checkOverflow dpO mpO s1).2 := rfl

theorem zeroGrad_allGradsNone (s : State σ) : (zeroGrad s).allGradsNone = true := by
  simp [zeroGrad, State.allGradsNone, List.all_map, Function.comp_def]

theorem zeroGrad_masterParams (s : State σ) : (zeroGrad s).masterParams = s.masterParams := rfl

theorem zeroGrad_baseState (s : State σ) : (zeroGrad s).baseState = s.baseState := rfl

theorem stepAfterUnscale_isSome (f : σ → List (List Param) → σ × List (List Tensor) × ρ)
    (dpO mpO : List ℚ) (s1 : State σ) :
    (stepAfterUnscale f dpO mpO s1).isSome = true := by
  unfold stepAfterUnscale
  by_cases h : (stepUpdateScaler dpO mpO s1).2 <;> simp [h]

theorem step_isSome (f : σ → List (List Param) → σ × List (List Tensor) × ρ)
    (dpO mpO : List ℚ) (s : State σ) : (step f dpO mpO s).isSome = true := by
  obtain ⟨s1, hu, -, -, -, -, -, -⟩ := unscaleIfScaled_spec s
  unfold step
  rw [hu]
  simpa using stepAfterUnscale_isSome f dpO mpO s1

theorem clipGradNorm_isSome (clipFn : ℚ → List (List Param) → List (List Param) × ℚ)
    (maxNorm : ℚ) (s : State σ) : (clipGradNorm clipFn maxNorm s).isSome = true := by
  obtain ⟨s1, hu, -, -, -, -, -, -⟩ := unscaleIfScaled_spec s
  unfold clipGradNorm
  rw [hu]
  rfl

theorem runPublic_isSome (ops : List (PubOp σ)) (s : State σ) :
    (runPublic ops s).isSome = true := by
  induction ops generalizing s with
  | nil => rfl
  | cons op ops ih =>
    cases op with
    | stepOp f dpO mpO =>
      obtain ⟨r, hr⟩ := Option.isSome_iff_exists.mp (step_isSome f dpO mpO s)
      simp [runPublic, hr, ih]
    | clipOp c m =>
      obtain ⟨r, hr⟩ := Option.isSome_iff_exists.mp (clipGradNorm_isSome c m s)
      simp [runPublic, hr, ih]

theorem map_data_zipKeep_write (ts : List Tensor) (g : List Param) :
    (zipKeep (fun t p => { p with data := t }) ts g).map Param.data
      = zipKeep (fun t _x => t) ts (g.map Param.data) := by
  induction ts generalizing g with
  | nil => cases g <;> simp [zipKeep]
  | cons t ts ih =>
    cases g with
    | nil => simp [zipKeep]
    | cons p ps => simp [zipKeep, ih]

theorem map_data_zipKeep_write2 (nds : List (List Tensor)) (gs : List (List Param)) :
    ((zipKeep (fun ts g => zipKeep (fun t p => { p with data := t }) ts g) nds gs).map
        (List.map Param.data))
      = zipKeep (fun ts ms => zipKeep (fun t _x => t) ts ms) nds
          (gs.map (List.map Param.data)) := by
  induction nds generalizing gs with
  | nil => cases gs <;> simp [zipKeep]
  | cons ts nds ih =>
    cases gs with
    | nil => simp [zipKeep]
    | cons g gs => simp [zipKeep, ih, map_data_zipKeep_write]

theorem zipKeep_write_data_exact (ms : List Tensor) (g : List Param)
    (h : ms.length = g.length) :
    (zipKeep (fun m p => { p with data := m }) ms g).map Param.data = ms := by
  induction ms generalizing g with
  | nil =>
    cases g with
    | nil => simp [zipKeep]
    | cons p ps => simp at h
  | cons m ms ih =>
    cases g with
    | nil => simp at h
    | cons p ps =>
      simp only [List.length_cons, Nat.add_right_cancel_iff] at h
      simp [zipKeep, ih ps h]

theorem zipKeep_write_data_exact2 (ms : List (List Tensor)) (gs : List (List Param))
    (h : ms.map List.length = gs.map List.length) :
    ((zipKeep (fun m g => zipKeep (fun t p => { p with data := t }) m g) ms gs).map
        (List.map Param.data)) = ms := by
  induction ms generalizing gs with
  | nil =>
    cases gs with
    | nil => simp [zipKeep]
    | cons g gs => simp at h
  | cons m ms ih =>
    cases gs with
    | nil => simp at h
    | cons g gs =>
      simp only [List.map_cons, List.cons.injEq] at h
      simp [zipKeep, ih gs h.2, zipKeep_write_data_exact m g h.1]

theorem map_grad_zipKeep_write (ts : List Tensor) (g : List Param) :
    (zipKeep (fun t p => { p with data := t }) ts g).map Param.grad
      = g.map Param.grad := by
  induction ts generalizing g with
  | nil => cases g <;> simp [zipKeep]
  | cons t ts ih =>
    cases g with
    | nil => simp [zipKeep]
    | cons p ps => simp [zipKeep, ih]

theorem writeMasterToData_grads (s : State σ) :
    (writeMasterToData s).paramGroups.map (List.map Param.grad)
      = s.paramGroups.map (List.map Param.grad) := by
  unfold writeMasterToData
  simp only []
  generalize s.masterParams = ms
  generalize s.paramGroups = gs
  induction ms generalizing gs with
  | nil => cases gs <;> simp [zipKeep]
  | cons m ms ih =>
    cases gs with
    | nil => simp [zipKeep]
    | cons g gs => simp [zipKeep, ih, map_grad_zipKeep_write]

theorem shardedWritebackParam_data (p : Param) :
    (shardedWritebackParam p).data = p.data := by
  cases h : p.ca_attr <;>
    simp [shardedWritebackParam, h, CaAttr.set_payload, CaAttr.payload]

theorem shardedWriteback_data (s : State σ) :
    (shardedWriteback s).paramGroups.map (List.map Param.data)
      = s.paramGroups.map (List.map Param.data) := by
  simp [shardedWriteback, List.map_map, Function.comp_def, shardedWritebackParam_data]

theorem shardedWriteback_payloads (s : State σ) :
    (shardedWriteback s).payloadsMatchData = true := by
  simp only [shardedWriteback, State.payloadsMatchData, List.all_eq_true]
  intro g hg p hp
  simp only [List.mem_map] at hg
  obtain ⟨g0, hg0, rfl⟩ := hg
  simp only [List.mem_map] at hp
  obtain ⟨p0, hp0, rfl⟩ := hp
  cases h : p0.ca_attr <;>
    simp [shardedWritebackParam, h, CaAttr.set_payload, CaAttr.payload]

theorem stepApplyBase_round_trip (f : σ → List (List Param) → σ × List (List Tensor) × ρ)
    (s3 : State σ)
    (hal3 : s3.masterParams.map List.length = s3.paramGroups.map List.length) :
    (stepApplyBase f s3).1.masterParams
      = (stepApplyBase f s3).1.paramGroups.map (List.map Param.data) := by
  unfold stepApplyBase
  rw [shardedWriteback_data]
  unfold applyBaseUpdate writeMasterToData
  simp only []
  rw [map_data_zipKeep_write2, zipKeep_write_data_exact2 _ _ hal3]
  rfl

theorem step_eq_of_overflow (f : σ → List (List Param) → σ × List (List Tensor) × ρ)
    (dpO mpO : List ℚ) (s s1 : State σ) (hu : unscaleIfScaled s = some s1)
    (hov : (checkOverflow dpO mpO s1).2 = true) :
    step f dpO mpO s = some (zeroGrad (stepUpdateScaler dpO mpO s1).1, none) := by
  unfold step
  rw [hu]
  unfold stepAfterUnscale
  simp only [Option.some_bind]
  rw [if_pos]
  rw [stepUpdateScaler_snd]
  exact hov

theorem step_eq_of_no_overflow (f : σ → List (List Param) → σ × List (List Tensor) × ρ)
    (dpO mpO : List ℚ) (s s1 : State σ) (hu : unscaleIfScaled s = some s1)
    (hov : (checkOverflow dpO mpO s1).2 = false) :
    step f dpO mpO s
      = some ((stepApplyBase f (stepUpdateScaler dpO mpO s1).1).1,
              some (stepApplyBase f (stepUpdateScaler dpO mpO s1).1).2) := by
  unfold step
  rw [hu]
  unfold stepAfterUnscale
  simp only [Option.some_bind]
  rw [if_neg]
  rw [stepUpdateScaler_snd, hov]
  exact Bool.false_ne_true

theorem traverseOption_eq_none_of_mem (f : α → Option β) (l : List α) (x : α)
    (hx : x ∈ l) (hfx : f x = none) : traverseOption f l = none := by
  induction l with
  | nil => cases hx
  | cons a as ih =>
    cases hx with
    | head => simp [traverseOption, hfx]
    | tail _ h =>
      cases hfa : f a with
      | none => simp [traverseOption, hfa]
      | some b => simp [traverseOption, hfa, ih h]

/-! Claim theorems. -/

/-- Claim C1: if the overflow consensus check during `step` reports
overflow, then `step` clears all gradients and returns `None` without
running the wrapped base optimizer (the result does not depend on the base
step function at all), and it leaves every master parameter and the
base-optimizer internal state exactly as they were before the call —
from any entry state, hence after any sequence of prior operations. -/
theorem step_overflow_skips (f g : σ → List (List Param) → σ × List (List Tensor) × ρ)
    (dpO mpO : List ℚ) (s : State σ)
    (hov : stepFoundInf dpO mpO s = true) :
    (step f dpO mpO s).map (fun r => r.2) = some none ∧
    (step f dpO mpO s).map (fun r => r.1.masterParams) = some s.masterParams ∧
    (step f dpO mpO s).map (fun r => r.1.baseState) = some s.baseState ∧
    (step f dpO mpO s).map (fun r => r.1.allGradsNone) = some true ∧
    step g dpO mpO s = step f dpO mpO s := by
  obtain ⟨s1, hu, hm, hb, -, -, -, -⟩ := unscaleIfScaled_spec s
  have hov1 : (checkOverflow dpO mpO s1).2 = true := by
    unfold stepFoundInf at hov
    rw [hu] at hov
    exact hov
  rw [step_eq_of_overflow f dpO mpO s s1 hu hov1,
    step_eq_of_overflow g dpO mpO s s1 hu hov1]
  refine ⟨rfl, ?_, ?_, ?_, rfl⟩
  · simp only [Option.map_some', Option.some.injEq, zeroGrad_masterParams,
      stepUpdateScaler_fst_masterParams]
    exact hm
  · simp only [Option.map_some', Option.some.injEq, zeroGrad_baseState,
      stepUpdateScaler_fst_baseState]
    exact hb
  · simp [zeroGrad_allGradsNone]

/-- Witness for the C1 theorem: a concrete state in which a data-parallel
peer reports overflow (contribution `1`), so the local step is skipped. -/
theorem step_overflow_skips_witness :
    (step fEx [1] [] sScaled).map (fun r => r.2) = some none ∧
    (step fEx [1] [] sScaled).map (fun r => r.1.masterParams) = some sScaled.masterParams ∧
    (step fEx [1] [] sScaled).map (fun r => r.1.baseState) = some sScaled.baseState ∧
    (step fEx [1] [] sScaled).map (fun r => r.1.allGradsNone) = some true ∧
    step gEx [1] [] sScaled = step fEx [1] [] sScaled :=
  step_overflow_skips fEx gEx [1] [] sScaled (by decide)

/-- Claim C2 counterexample: with an overflowing gradient in the first group
the code still inspects the parameter of the second group — the `break` in
`_check_overflow` leaves only the inner loop, so the scan is not the single
global short-circuit the claim asserts (its inspection trace has length 2
where the claimed scan stops after 1). -/
theorem scan_not_global_short_circuit :
    scanTrace [[pNan], [pFin]] ≠ scanTraceClaim [[pNan], [pFin]] ∧
    (scanTrace [[pNan], [pFin]]).length = 2 ∧
    (scanTraceClaim [[pNan], [pFin]]).length = 1 :=
  ⟨by decide, by decide, by decide⟩

/-- Claim C2 (amended): `_check_overflow` resets the shared flag to `0` (so
its outcome does not depend on the previous flag value), scans every group
— within a group it stops right after the first parameter with a non-finite
gradient element, while subsequent groups are still scanned — leaving the
local flag at `1` exactly when some gradient has a non-finite element, then
max-reduces the flag across the data-parallel process group followed by the
model-parallel process group, in that fixed order, stores the reduced flag,
and returns whether it is positive. -/
theorem checkOverflow_spec_amended (s : State σ) (dpO mpO : List ℚ) (x : ℚ)
    (g : List Param) :
    (checkOverflow dpO mpO s).2
      = decide (0 < allReduceMax (allReduceMax (scanGroups 0 s.paramGroups) dpO) mpO) ∧
    (checkOverflow dpO mpO s).1.foundOverflow
      = allReduceMax (allReduceMax (scanGroups 0 s.paramGroups) dpO) mpO ∧
    (checkOverflow dpO mpO { s with foundOverflow := x }).2
      = (checkOverflow dpO mpO s).2 ∧
    (checkOverflow dpO mpO { s with foundOverflow := x }).1.foundOverflow
      = (checkOverflow dpO mpO s).1.foundOverflow ∧
    scanGroups 0 s.paramGroups
      = (if s.paramGroups.any (fun gg => gg.any fun p => hasInfOrNan p.grad)
         then 1 else 0) ∧
    scanGroupTrace g
      = g.takeWhile (fun p => !hasInfOrNan p.grad)
        ++ (g.drop (g.takeWhile (fun p => !hasInfOrNan p.grad)).length).take 1 ∧
    (checkOverflow dpO mpO s).1.commLog
      = s.commLog ++ [CommOp.allReduceMaxDp, CommOp.allReduceMaxMp] :=
  ⟨rfl, rfl, rfl, rfl, scanGroups_eq 0 s.paramGroups, scanGroupTrace_eq g, rfl⟩

/-- Claim C5: the phase state machine — `backward` multiplies the loss by
the current scale and always leaves the phase `SCALED` before delegating; a
successful `_unscale_grads` leaves the phase `UNSCALED` (and fails
otherwise); the guarded unscale always lands in `UNSCALED`; and `step`
reaches the base optimizer only through `stepAfterUnscale`, i.e. only after
the guarded unscale — these hold at every state, hence under every
interleaving of `backward`, `step` and `clip_grad_norm` calls. -/
theorem phase_state_machine (bf : ℚ → List (List Param) → List (List Param))
    (loss : ℚ) (s s2 s3 : State σ)
    (f : σ → List (List Param) → σ × List (List Tensor) × ρ) (dpO mpO : List ℚ) :
    (backward bf loss s).optimState = OptimState.SCALED ∧
    backwardScaledLoss s loss = s.gradScaler.scale * loss ∧
    (unscaleGradsChecked s2).map State.optimState
      = (if s2.optimState = OptimState.SCALED then some OptimState.UNSCALED else none) ∧
    (unscaleIfScaled s3).map State.optimState = some OptimState.UNSCALED ∧
    step f dpO mpO s3 = (unscaleIfScaled s3).bind (stepAfterUnscale f dpO mpO) := by
  refine ⟨backward_optimState bf loss s, rfl, ?_, ?_, rfl⟩
  · unfold unscaleGradsChecked
    by_cases h : s2.optimState = OptimState.SCALED <;> simp [h]
  · obtain ⟨s1, hu, -, -, -, ho, -, -⟩ := unscaleIfScaled_spec s3
    rw [hu]
    simp [ho]

/-- Claim C8: invoking the unscale transition while the phase is already
`UNSCALED` fails the assertion of `_unscale_grads`: a double unscale without
an intervening backward is rejected rather than dividing twice. -/
theorem unscale_asserts_when_unscaled (s : State σ)
    (h : s.optimState = OptimState.UNSCALED) : unscaleGradsChecked s = none := by
  unfold unscaleGradsChecked
  rw [h]
  simp

/-- Witness for the C8 theorem at a concrete `UNSCALED` state. -/
theorem unscale_asserts_when_unscaled_witness : unscaleGradsChecked sUn = none :=
  unscale_asserts_when_unscaled sUn rfl

/-- Claim C9: a parameter with an absent (`None`) gradient never signals
overflow, and when every present gradient of every group is finite the
local scan leaves the flag at `0` — absent gradients contribute nothing to
the consensus. -/
theorem none_grad_no_overflow (groups : List (List Param))
    (hfin : groups.all (fun g => g.all fun p =>
        match p.grad with
        | none => true
        | some t => !t.data.any Val.isNonFinite) = true) :
    scanGroups 0 groups = 0 ∧ hasInfOrNan none = false := by
  refine ⟨?_, rfl⟩
  have hno : groups.any (fun g => g.any fun p => hasInfOrNan p.grad) = false := by
    simp only [List.any_eq_false, Bool.not_eq_true]
    intro g hg p hp
    simp only [List.all_eq_true] at hfin
    have h2 := hfin g hg p hp
    cases hgr : p.grad with
    | none => simp [hasInfOrNan]
    | some t =>
      rw [hgr] at h2
      simp only [Bool.not_eq_true'] at h2
      simp [hasInfOrNan, h2]
  rw [scanGroups_eq, hno]
  simp

/-- Witness for the C9 theorem: a group with one absent gradient and one
finite gradient. -/
theorem none_grad_no_overflow_witness :
    scanGroups 0 [[pNoGrad, pFin]] = 0 ∧ hasInfOrNan none = false :=
  none_grad_no_overflow [[pNoGrad, pFin]] (by decide)

/-- Claim C10: the double-unscale assertion is unreachable through the
public interface: `step` and `clip_grad_norm` unscale only under a `SCALED`
guard, so a single call from any state succeeds, and so does every sequence
of such calls with no intervening `backward`. -/
theorem public_api_never_asserts (s : State σ)
    (f : σ → List (List Param) → σ × List (List Tensor) × ρ) (dpO mpO : List ℚ)
    (clipFn : ℚ → List (List Param) → List (List Param) × ℚ) (maxNorm : ℚ)
    (ops : List (PubOp σ)) :
    (step f dpO mpO s).isSome = true ∧
    (clipGradNorm clipFn maxNorm s).isSome = true ∧
    (runPublic ops s).isSome = true :=
  ⟨step_isSome f dpO mpO s, clipGradNorm_isSome clipFn maxNorm s, runPublic_isSome ops s⟩

/-- Claim C3: after a `step` in which no overflow is found, the master
store holds exactly the current data of every parameter in the base
optimizer's param groups (`get(p) == p.data` immediately after `step`
returns), the resident payload of every sharded parameter equals its data,
and the base optimizer did run (its result is returned).  The definition of
`step` exhibits the claimed sequence: master values are written into the
working-parameter slots, the base step runs on them in place (so the master
tensors are the updated ones), and sharded data is pushed back into the
payloads. -/
theorem step_no_overflow_round_trip
    (f : σ → List (List Param) → σ × List (List Tensor) × ρ)
    (dpO mpO : List ℚ) (s : State σ) (hal : s.aligned)
    (hov : stepFoundInf dpO mpO s = false) :
    (step f dpO mpO s).map (fun r => r.1.mastersMatchData) = some true ∧
    (step f dpO mpO s).map (fun r => r.1.payloadsMatchData) = some true ∧
    (step f dpO mpO s).map (fun r => r.2.isSome) = some true := by
  obtain ⟨s1, hu, hm, -, -, -, -, hlen⟩ := unscaleIfScaled_spec s
  have hov1 : (checkOverflow dpO mpO s1).2 = false := by
    unfold stepFoundInf at hov
    rw [hu] at hov
    exact hov
  rw [step_eq_of_no_overflow f dpO mpO s s1 hu hov1]
  have hal3 : (stepUpdateScaler dpO mpO s1).1.masterParams.map List.length
      = (stepUpdateScaler dpO mpO s1).1.paramGroups.map List.length := by
    rw [stepUpdateScaler_fst_masterParams, stepUpdateScaler_fst_paramGroups, hm, hlen]
    exact hal
  refine ⟨?_, ?_, rfl⟩
  · have h1 := stepApplyBase_round_trip f (stepUpdateScaler dpO mpO s1).1 hal3
    simp [State.mastersMatchData, h1]
  · have h2 : (stepApplyBase f (stepUpdateScaler dpO mpO s1).1).1.payloadsMatchData
        = true := by
      unfold stepApplyBase
      exact shardedWriteback_payloads _
    simp [h2]

/-- Witness for the C3 theorem: a concrete no-overflow step on one sharded
parameter (the peer contributions to both reductions are `0`). -/
theorem step_no_overflow_round_trip_witness :
    (step fEx [0] [] sScaled).map (fun r => r.1.mastersMatchData) = some true ∧
    (step fEx [0] [] sScaled).map (fun r => r.1.payloadsMatchData) = some true ∧
    (step fEx [0] [] sScaled).map (fun r => r.2.isSome) = some true :=
  step_no_overflow_round_trip fEx [0] [] sScaled
    (by unfold State.aligned; decide) (by decide)

/-- Claim C4: a `step` entered in the `SCALED` phase first divides every
present gradient in place by the current loss scale and moves to phase
`UNSCALED`, with the grad scaler untouched at that point — the scaler
update comes only afterwards, inside `stepAfterUnscale` — and the
master-write before the base step leaves gradients alone, so the base
optimizer observes exactly the unscaled gradients; `backward` never touches
the scaler, so the scale used for unscaling equals the scale applied to the
loss in the preceding `backward` (which passes `scale * loss` to the
model, e.g. `8 * 2 = 16` in the spec scenario). -/
theorem step_unscale_uses_backward_scale (s : State σ)
    (h : s.optimState = OptimState.SCALED)
    (bf : ℚ → List (List Param) → List (List Param)) (loss : ℚ) (s0 : State σ)
    (f : σ → List (List Param) → σ × List (List Tensor) × ρ) (dpO mpO : List ℚ)
    (p : Param) (gt : Tensor) (sx : State σ) :
    (unscaleIfScaled s).map State.paramGroups
      = some (s.paramGroups.map (List.map (unscaleParam s.gradScaler.scale))) ∧
    (unscaleIfScaled s).map State.optimState = some OptimState.UNSCALED ∧
    (unscaleIfScaled s).map State.gradScaler = some s.gradScaler ∧
    step f dpO mpO s = (unscaleIfScaled s).bind (stepAfterUnscale f dpO mpO) ∧
    (unscaleParam s.gradScaler.scale { p with grad := some gt }).grad
      = some (gt.divScalar s.gradScaler.scale) ∧
    (writeMasterToData sx).paramGroups.map (List.map Param.grad)
      = sx.paramGroups.map (List.map Param.grad) ∧
    (backward bf loss s0).gradScaler = s0.gradScaler ∧
    (unscaleIfScaled (backward bf loss s0)).map State.paramGroups
      = some ((backward bf loss s0).paramGroups.map
          (List.map (unscaleParam s0.gradScaler.scale))) ∧
    backwardScaledLoss s0 loss = s0.gradScaler.scale * loss := by
  refine ⟨?_, ?_, ?_, rfl, rfl, writeMasterToData_grads sx,
    backward_gradScaler bf loss s0, ?_, rfl⟩
  · simp [unscaleIfScaled, unscaleGradsChecked, h]
  · simp [unscaleIfScaled, unscaleGradsChecked, h]
  · simp [unscaleIfScaled, unscaleGradsChecked, h]
  · have hb1 := backward_optimState bf loss s0
    have hb2 := backward_gradScaler bf loss s0
    simp [unscaleIfScaled, unscaleGradsChecked, hb1, hb2]

/-- Witness for the C4 theorem: the spec scenario, scale `8`, loss `2`,
entry gradient `16`. -/
theorem step_unscale_uses_backward_scale_witness :
    (unscaleIfScaled sScaled).map State.paramGroups
      = some (sScaled.paramGroups.map (List.map (unscaleParam sScaled.gradScaler.scale))) ∧
    (unscaleIfScaled sScaled).map State.optimState = some OptimState.UNSCALED ∧
    (unscaleIfScaled sScaled).map State.gradScaler = some sScaled.gradScaler ∧
    step fEx [0] [] sScaled = (unscaleIfScaled sScaled).bind (stepAfterUnscale fEx [0] []) ∧
    (unscaleParam sScaled.gradScaler.scale { pFin with grad := some t16 }).grad
      = some (t16.divScalar sScaled.gradScaler.scale) ∧
    (writeMasterToData sScaled).paramGroups.map (List.map Param.grad)
      = sScaled.paramGroups.map (List.map Param.grad) ∧
    (backward bfEx 2 sScaled).gradScaler = sScaled.gradScaler ∧
    (unscaleIfScaled (backward bfEx 2 sScaled)).map State.paramGroups
      = some ((backward bfEx 2 sScaled).paramGroups.map
          (List.map (unscaleParam sScaled.gradScaler.scale))) ∧
    backwardScaledLoss sScaled 2 = sScaled.gradScaler.scale * 2 :=
  step_unscale_uses_backward_scale sScaled rfl bfEx 2 sScaled fEx [0] [] pFin t16 sScaled

/-- Claim C6 counterexample: a float64 working parameter is converted to
32-bit float by the constructor, although float64 is a floating type that is
not lower-precision — so the conversion does not happen "exactly when the
source is a lower-precision floating type". -/
theorem master_param_float64_downcast :
    (initMasterParam Device.gpu p64).map Tensor.dtype = some DType.float32 ∧
    DType.isLowerPrecisionFloat DType.float64 = false ∧
    DType.isFloatingPoint DType.float64 = true :=
  ⟨by decide, by decide, by decide⟩

theorem initMasterParam_spec (device : Device) (p : Param) (m : Tensor)
    (hm : initMasterParam device p = some m) :
    m.device = device ∧
    m.dtype = (if (srcDtype p).isFloatingPoint ∧ srcDtype p ≠ DType.float32
               then DType.float32 else srcDtype p) := by
  unfold initMasterParam at hm
  unfold srcDtype
  cases hca : p.ca_attr with
  | none =>
    simp only [hca, Option.map_some', Option.some.injEq] at hm
    subst hm
    by_cases hc : DType.isFloatingPoint p.data.dtype ∧ p.data.dtype ≠ DType.float32 <;>
      simp [hca, Tensor.toDevice, Tensor.toDType, hc]
  | some a =>
    cases hsh : a.is_sharded with
    | false =>
      simp only [hca, hsh] at hm
      simp at hm
    | true =>
      simp only [hca, hsh, if_true, Option.map_some', Option.some.injEq] at hm
      subst hm
      by_cases hc : DType.isFloatingPoint a.payload_data.dtype ∧
          a.payload_data.dtype ≠ DType.float32 <;>
        simp [hca, CaAttr.payloadOn, Tensor.toDevice, Tensor.toDType, hc]

/-- Claim C6 (amended): at construction the master copy of every working
parameter is placed on the configured device (GPU by default, CPU when
cpu_offload is set) and is converted to 32-bit floating precision exactly
when the source is a floating type other than 32-bit float — lower-precision
floats are upcast, and float64 is downcast; non-floating-point values are
left unconverted. -/
theorem master_param_device_dtype (baseSt : σ) (mis cpuOff : Bool)
    (isc msc gf bff : ℚ) (gi : ℕ) (mxs : ℚ) (groups : List (List Param))
    (st : State σ)
    (hinit : init baseSt mis cpuOff isc msc gf bff gi mxs groups = some st)
    (device : Device) (p : Param) (m : Tensor)
    (hm : initMasterParam device p = some m) :
    st.device = (if cpuOff then Device.cpu else Device.gpu) ∧
    m.device = device ∧
    m.dtype = (if (srcDtype p).isFloatingPoint ∧ srcDtype p ≠ DType.float32
               then DType.float32 else srcDtype p) := by
  obtain ⟨hd, hty⟩ := initMasterParam_spec device p m hm
  refine ⟨?_, hd, hty⟩
  simp only [init, Option.map_eq_some'] at hinit
  obtain ⟨masters, -, hst⟩ := hinit
  rw [← hst]

/-- Witness for the C6 (amended) theorem: `init` on the empty group list,
and an fp16 parameter whose master copy lands on the cpu as 32-bit float. -/
theorem master_param_device_dtype_witness :
    stInit.device = (if false then Device.cpu else Device.gpu) ∧
    mHalf.device = Device.cpu ∧
    mHalf.dtype = (if (srcDtype pHalfPlain).isFloatingPoint ∧
        srcDtype pHalfPlain ≠ DType.float32
      then DType.float32 else srcDtype pHalfPlain) :=
  master_param_device_dtype () true false 8 1 2 half 1000 32 [] stInit (by decide)
    Device.cpu pHalfPlain mHalf (by decide)

/-- Claim C7: constructing the optimizer with a parameter that carries the
sharded-attribute object with `is_sharded = false` fails the construction
assertion (fail fast), wherever that parameter sits in the param groups. -/
theorem init_rejects_unsharded_attr (baseSt : σ) (mis cpuOff : Bool)
    (isc msc gf bff : ℚ) (gi : ℕ) (mxs : ℚ) (groups : List (List Param))
    (g : List Param) (p : Param) (a : CaAttr)
    (hg : g ∈ groups) (hp : p ∈ g) (ha : p.ca_attr = some a)
    (hs : a.is_sharded = false) :
    init baseSt mis cpuOff isc msc gf bff gi mxs groups = none := by
  have hpm : initMasterParam (if cpuOff then Device.cpu else Device.gpu) p = none := by
    unfold initMasterParam
    simp [ha, hs]
  have hinner : traverseOption
      (initMasterParam (if cpuOff then Device.cpu else Device.gpu)) g = none :=
    traverseOption_eq_none_of_mem _ g p hp hpm
  have houter := traverseOption_eq_none_of_mem
    (traverseOption (initMasterParam (if cpuOff then Device.cpu else Device.gpu)))
    groups g hg hinner
  simp only [init]
  rw [houter]
  rfl

/-- Witness for the C7 theorem: a parameter carrying a non-sharded
attribute object. -/
theorem init_rejects_unsharded_attr_witness :
    init () true false 8 1 2 half 1000 32 [[pBadAttr]] = none :=
  init_rejects_unsharded_attr () true false 8 1 2 half 1000 32 [[pBadAttr]]
    [pBadAttr] pBadAttr aBad (by decide) (by decide) (by decide) (by decide)

end ShardedOptimizerV2
